import Mathlib

set_option autoImplicit false

namespace FineTuneRag

/-! Shallow embedding of the repository's hit-rate evaluation and fine-tuning
data preparation (notebooks `evaluate.ipynb` and `finetune.ipynb`).

Python dicts are modelled as association lists (insertion-ordered, looked up by
first matching key); a failing dict or list-index access (`KeyError`,
`IndexError`) is modelled with `Except String`. The external vector-index
retrieval (llama-index `VectorStoreIndex` / `retriever.retrieve`) is not part
of the repository; where a claim depends on it, it is modelled from the spec as
a similarity ranking truncated to `top_k`. -/

/-- Python dict access `m[k]` on an association list: the value at the first
matching key, `none` when the key is absent. -/
def lookup {α : Type} (m : List (String × α)) (k : String) : Option α :=
  match m with
  | [] => none
  | (k₀, v) :: rest => if k₀ = k then some v else lookup rest k

/-- A dataset as loaded from the JSON files: the three mappings
`corpus`, `queries`, `relevant_docs`. -/
structure Dataset where
  corpus : List (String × String)
  queries : List (String × String)
  relevant_docs : List (String × List String)
  deriving DecidableEq, Repr

/-- One evaluation record, the dict built per query in `evaluate`
(`evaluate.ipynb`): fields `is_hit`, `retrieved`, `expected`, `query`. -/
structure EvalResult where
  is_hit : Bool
  retrieved : List String
  expected : String
  query : String
  deriving DecidableEq, Repr

/-- The per-query loop of `evaluate` (`evaluate.ipynb`): for each
`(query_id, query)` in iteration order, retrieve, look up
`relevant_docs[query_id][0]` as the expected identifier (a missing key raises
`KeyError`, an empty list raises `IndexError`), set
`is_hit = expected_id in retrieved_ids`, and append the record. -/
def evalQueries (relevant_docs : List (String × List String))
    (retrieve : String → List String) :
    List (String × String) → Except String (List EvalResult)
  | [] => .ok []
  | (query_id, query) :: rest =>
    let retrieved_ids := retrieve query
    match lookup relevant_docs query_id with
    | none => .error ("KeyError: " ++ query_id)
    | some [] => .error "IndexError: list index out of range"
    | some (expected_id :: _) =>
      match evalQueries relevant_docs retrieve rest with
      | .error e => .error e
      | .ok restResults =>
        .ok (⟨decide (expected_id ∈ retrieved_ids), retrieved_ids,
              expected_id, query_id⟩ :: restResults)

/-- `evaluate(dataset, embed_model, top_k)` (`evaluate.ipynb`), with the
index construction and retriever abstracted into the `retrieve` function
(query text to retrieved identifier sequence). -/
def evaluate (dataset : Dataset) (retrieve : String → List String) :
    Except String (List EvalResult) :=
  evalQueries dataset.relevant_docs retrieve dataset.queries

/-- Modelled from the spec: the nearest-neighbour retrieval step is delegated
to the external vector-index library and is absent from src. Per the spec, the
index ranks the corpus identifiers by similarity to the query text
(`ranking`), and a retriever built with `similarity_top_k = k` returns the
nearest `k` of them, i.e. the first `k` entries of the ranking. -/
def retrieveTopK (ranking : String → List String) (top_k : Nat)
    (query : String) : List String :=
  (ranking query).take top_k

/-- The hit flag as a number, as pandas coerces booleans for `mean`. -/
def boolToRat (b : Bool) : Rat := if b then 1 else 0

/-- A pandas scalar: either a number or the floating-point `NaN` marker. -/
inductive PandasScalar where
  | nan : PandasScalar
  | val : Rat → PandasScalar
  deriving DecidableEq, Repr

/-- pandas `Series.mean`: the arithmetic mean of the entries, `NaN` on an
empty series. -/
def seriesMean (xs : List Rat) : PandasScalar :=
  if xs = [] then .nan else .val (xs.sum / (xs.length : Rat))

/-- The aggregation `pd.DataFrame(results)['is_hit'].mean()` (the
`hit_rate_ada` / `hit_rate_bge` / `hit_rate_finetuned` cells of
`evaluate.ipynb`): a DataFrame built from an empty record list has no columns,
so the column access raises `KeyError`; otherwise the mean of the hit flags. -/
def hit_rate (results : List EvalResult) : Except String PandasScalar :=
  if results = [] then .error "KeyError: is_hit"
  else .ok (seriesMean (results.map (fun r => boolToRat r.is_hit)))

/-- A row of `df_all`: a hit flag labelled with its provider
(the `model` column added before `pd.concat`). -/
structure LabeledResult where
  is_hit : Bool
  model : String
  deriving DecidableEq, Repr

/-- One step of the groupby aggregation: fold one row's hit flag into the
per-label (sum, count) table, creating the label's entry on first sight. -/
def bump (label : String) (x : Rat) :
    List (String × Rat × Nat) → List (String × Rat × Nat)
  | [] => [(label, x, 1)]
  | (l, s, c) :: rest =>
    if l = label then (l, s + x, c + 1) :: rest
    else (l, s, c) :: bump label x rest

/-- The row-by-row accumulation behind `df_all.groupby('model')`: per-label
sum and count of the hit flags. -/
def groupAgg : List LabeledResult → List (String × Rat × Nat)
  | [] => []
  | r :: rest => bump r.model (boolToRat r.is_hit) (groupAgg rest)

/-- `df_all.groupby('model').mean('is_hit')` (`evaluate.ipynb`): one scalar
per label, the per-label sum of hit flags divided by the per-label count. -/
def groupMeans (rows : List LabeledResult) : List (String × Rat) :=
  (groupAgg rows).map (fun e => (e.1, e.2.1 / (e.2.2 : Rat)))

/-- The training-pair construction of `finetune.ipynb`: for each
`(query_id, query)` in iteration order, `node_id = relevant_docs[query_id][0]`,
`text = corpus[node_id]`, and the pair `InputExample(texts=[query, text])`;
each failing lookup raises. -/
def buildExamplesFrom (corpus : List (String × String))
    (relevant_docs : List (String × List String)) :
    List (String × String) → Except String (List (String × String))
  | [] => .ok []
  | (query_id, query) :: rest =>
    match lookup relevant_docs query_id with
    | none => .error ("KeyError: " ++ query_id)
    | some [] => .error "IndexError: list index out of range"
    | some (node_id :: _) =>
      match lookup corpus node_id with
      | none => .error ("KeyError: " ++ node_id)
      | some text =>
        match buildExamplesFrom corpus relevant_docs rest with
        | .error e => .error e
        | .ok restExamples => .ok ((query, text) :: restExamples)

/-- The `examples` cell of `finetune.ipynb` applied to a dataset. -/
def buildExamples (dataset : Dataset) : Except String (List (String × String)) :=
  buildExamplesFrom dataset.corpus dataset.relevant_docs dataset.queries

/-- Truncating every relevant-docs sequence to its first element; used to
state that only the first element is ever read. -/
def truncateRel (rel : List (String × List String)) :
    List (String × List String) :=
  rel.map (fun p => (p.1, p.2.take 1))

/-- The identifiers over which the vector index is built: the keys of the
corpus mapping (the `id_` of each `TextNode`). -/
def corpusIds (dataset : Dataset) : List String :=
  dataset.corpus.map (fun p => p.1)

/-- Number of records whose hit flag is true. -/
def countHits (results : List EvalResult) : Nat :=
  results.countP (fun r => r.is_hit)

/-- The two-document scenario from the spec's testable properties. -/
def dsExample : Dataset :=
  Dataset.mk [("d1", "cats are mammals"), ("d2", "stocks rose today")]
    [("q1", "what kind of animal is a cat")] [("q1", ["d1"])]

/-- A deterministic similarity ranking for `dsExample`: d1 nearest, then d2. -/
def rankingExample : String → List String := fun _ => ["d1", "d2"]

/-- A dataset whose only query has no entry in `relevant_docs`. -/
def dsMissingRel : Dataset :=
  Dataset.mk [("d1", "cats are mammals")]
    [("q1", "what kind of animal is a cat")] []

/-- A dataset whose queries mapping is empty. -/
def dsEmptyQueries : Dataset :=
  Dataset.mk [("d1", "cats are mammals")] [] [("q1", ["d1"])]

/-- A single-document dataset, exercised with the default top_k = 5. -/
def dsOneDoc : Dataset :=
  Dataset.mk [("d1", "cats are mammals")] [("q1", "what is a cat")]
    [("q1", ["d1"])]

/-- The similarity ranking over the one-document corpus. -/
def rankingOneDoc : String → List String := fun _ => ["d1"]

/-- The spec scenario with a ground-truth identifier (d3) absent from the
corpus. -/
def dsGhostDoc : Dataset :=
  Dataset.mk [("d1", "cats are mammals")] [("q1", "what is a cat")]
    [("q1", ["d3"])]

/-! ### Helper lemmas -/

theorem evalQueries_nil (rel : List (String × List String))
    (retr : String → List String) : evalQueries rel retr [] = .ok [] := rfl

theorem evalQueries_cons_ok (rel : List (String × List String))
    (retr : String → List String) (qid q : String)
    (rest : List (String × String)) (rs : List EvalResult)
    (h : evalQueries rel retr ((qid, q) :: rest) = .ok rs) :
    ∃ e tl rs₀, lookup rel qid = some (e :: tl) ∧
      evalQueries rel retr rest = .ok rs₀ ∧
      rs = ⟨decide (e ∈ retr q), retr q, e, qid⟩ :: rs₀ := by
  simp only [evalQueries] at h
  cases hl : lookup rel qid with
  | none => rw [hl] at h; exact Except.noConfusion h
  | some l =>
    cases l with
    | nil => rw [hl] at h; exact Except.noConfusion h
    | cons e tl =>
      rw [hl] at h
      cases hr : evalQueries rel retr rest with
      | error e₀ => rw [hr] at h; exact Except.noConfusion h
      | ok rs₀ =>
        rw [hr] at h
        simp only [Except.ok.injEq] at h
        exact ⟨e, tl, rs₀, rfl, rfl, h.symm⟩

theorem evalQueries_map_query (rel : List (String × List String))
    (retr : String → List String) (qs : List (String × String))
    (rs : List EvalResult) (h : evalQueries rel retr qs = .ok rs) :
    rs.map (fun r => r.query) = qs.map (fun p => p.1) := by
  induction qs generalizing rs with
  | nil =>
    rw [evalQueries_nil] at h
    cases h
    rfl
  | cons p rest ih =>
    obtain ⟨qid, q⟩ := p
    obtain ⟨e, tl, rs₀, _, hrest, hrs⟩ := evalQueries_cons_ok rel retr qid q rest rs h
    subst hrs
    simp only [List.map_cons]
    exact congrArg (qid :: ·) (ih rs₀ hrest)

theorem evalQueries_mem (rel : List (String × List String))
    (retr : String → List String) (qs : List (String × String))
    (rs : List EvalResult) (h : evalQueries rel retr qs = .ok rs)
    (r : EvalResult) (hr : r ∈ rs) :
    (∃ tl, lookup rel r.query = some (r.expected :: tl)) ∧
      (∃ qtext, (r.query, qtext) ∈ qs ∧ r.retrieved = retr qtext) ∧
      (r.is_hit = true ↔ r.expected ∈ r.retrieved) := by
  induction qs generalizing rs with
  | nil =>
    rw [evalQueries_nil] at h
    cases h
    cases hr
  | cons p rest ih =>
    obtain ⟨qid, q⟩ := p
    obtain ⟨e, tl, rs₀, hl, hrest, hrs⟩ := evalQueries_cons_ok rel retr qid q rest rs h
    subst hrs
    cases hr with
    | head => exact ⟨⟨tl, hl⟩, ⟨q, List.mem_cons_self _ _, rfl⟩, by simp⟩
    | tail _ hmem =>
      obtain ⟨h₁, ⟨qtext, hqmem, hretr⟩, h₃⟩ := ih rs₀ hrest hmem
      exact ⟨h₁, ⟨qtext, List.mem_cons_of_mem _ hqmem, hretr⟩, h₃⟩

theorem mem_take_mono {α : Type} {a : α} {l : List α} {k₁ k₂ : Nat}
    (hk : k₁ ≤ k₂) (h : a ∈ l.take k₁) : a ∈ l.take k₂ := by
  have heq : l.take k₁ = (l.take k₂).take k₁ := by
    rw [List.take_take, Nat.min_eq_left hk]
  rw [heq] at h
  exact List.take_subset _ _ h

theorem lookup_truncateRel (rel : List (String × List String)) (k : String) :
    lookup (truncateRel rel) k = (lookup rel k).map (fun l => l.take 1) := by
  induction rel with
  | nil => rfl
  | cons p rest ih =>
    obtain ⟨k₀, v⟩ := p
    simp only [truncateRel, List.map_cons, lookup] at ih ⊢
    by_cases hk : k₀ = k
    · simp [hk]
    · simp [hk, ih]

theorem evalQueries_truncateRel (rel : List (String × List String))
    (retr : String → List String) (qs : List (String × String)) :
    evalQueries (truncateRel rel) retr qs = evalQueries rel retr qs := by
  induction qs with
  | nil => rfl
  | cons p rest ih =>
    obtain ⟨qid, q⟩ := p
    simp only [evalQueries, lookup_truncateRel, ih]
    cases lookup rel qid with
    | none => rfl
    | some l =>
      cases l with
      | nil => rfl
      | cons e tl => rfl

theorem evalQueries_total (rel : List (String × List String))
    (retr : String → List String) (qs : List (String × String))
    (hcov : ∀ p ∈ qs, ∃ e tl, lookup rel p.1 = some (e :: tl)) :
    ∃ rs, evalQueries rel retr qs = .ok rs := by
  induction qs with
  | nil => exact ⟨[], rfl⟩
  | cons p rest ih =>
    obtain ⟨qid, q⟩ := p
    obtain ⟨e, tl, hl⟩ := hcov (qid, q) (List.mem_cons_self _ _)
    obtain ⟨rs₀, hrest⟩ := ih (fun p hp => hcov p (List.mem_cons_of_mem _ hp))
    exact ⟨⟨decide (e ∈ retr q), retr q, e, qid⟩ :: rs₀,
      by simp only [evalQueries, hl, hrest]⟩

theorem evalQueries_error_of_missing (rel : List (String × List String))
    (retr : String → List String) (qs : List (String × String))
    (qid q : String) (hmem : (qid, q) ∈ qs) (hl : lookup rel qid = none) :
    ∃ err, evalQueries rel retr qs = .error err := by
  induction qs with
  | nil => cases hmem
  | cons p rest ih =>
    obtain ⟨qid₀, q₀⟩ := p
    cases hl₀ : lookup rel qid₀ with
    | none => exact ⟨"KeyError: " ++ qid₀, by simp only [evalQueries, hl₀]⟩
    | some l =>
      cases l with
      | nil =>
        exact ⟨"IndexError: list index out of range",
          by simp only [evalQueries, hl₀]⟩
      | cons e tl =>
        rcases List.mem_cons.mp hmem with heq | hmem₀
        · rw [Prod.mk.injEq] at heq
          rw [← heq.1, hl] at hl₀
          exact Option.noConfusion hl₀
        · obtain ⟨err, hrest⟩ := ih hmem₀
          exact ⟨err, by simp only [evalQueries, hl₀, hrest]⟩

theorem evalQueries_hits_mono (rel : List (String × List String))
    (ranking : String → List String) (k₁ k₂ : Nat) (hk : k₁ ≤ k₂)
    (qs : List (String × String)) (rs₁ rs₂ : List EvalResult)
    (h₁ : evalQueries rel (retrieveTopK ranking k₁) qs = .ok rs₁)
    (h₂ : evalQueries rel (retrieveTopK ranking k₂) qs = .ok rs₂) :
    rs₁.length = rs₂.length ∧ countHits rs₁ ≤ countHits rs₂ := by
  induction qs generalizing rs₁ rs₂ with
  | nil =>
    rw [evalQueries_nil] at h₁ h₂
    cases h₁
    cases h₂
    exact ⟨rfl, Nat.le_refl _⟩
  | cons p rest ih =>
    obtain ⟨qid, q⟩ := p
    obtain ⟨e₁, tl₁, rs₁₀, hl₁, hrest₁, hrs₁⟩ :=
      evalQueries_cons_ok rel _ qid q rest rs₁ h₁
    obtain ⟨e₂, tl₂, rs₂₀, hl₂, hrest₂, hrs₂⟩ :=
      evalQueries_cons_ok rel _ qid q rest rs₂ h₂
    rw [hl₁] at hl₂
    injection hl₂ with hl₂
    injection hl₂ with he htl
    subst he
    subst hrs₁
    subst hrs₂
    obtain ⟨hlen, hcnt⟩ := ih rs₁₀ rs₂₀ hrest₁ hrest₂
    constructor
    · simpa using hlen
    · simp only [countHits, List.countP_cons] at hcnt ⊢
      by_cases hmem : e₁ ∈ retrieveTopK ranking k₁ q
      · have hmem₂ : e₁ ∈ retrieveTopK ranking k₂ q := mem_take_mono hk hmem
        simp [hmem, hmem₂]
        omega
      · by_cases hmem₂ : e₁ ∈ retrieveTopK ranking k₂ q <;>
          simp [hmem, hmem₂] <;> omega

theorem buildExamplesFrom_total_spec (corpus : List (String × String))
    (rel : List (String × List String)) (qs : List (String × String))
    (hcov : ∀ p ∈ qs, ∃ did tl text,
      lookup rel p.1 = some (did :: tl) ∧ lookup corpus did = some text) :
    ∃ ex, buildExamplesFrom corpus rel qs = .ok ex ∧
      List.Forall₂ (fun (p : String × String) (e : String × String) =>
        e.1 = p.2 ∧ ∃ did tl, lookup rel p.1 = some (did :: tl) ∧
          lookup corpus did = some e.2) qs ex := by
  induction qs with
  | nil => exact ⟨[], rfl, List.Forall₂.nil⟩
  | cons p rest ih =>
    obtain ⟨qid, q⟩ := p
    obtain ⟨did, tl, text, hrel, hcorp⟩ := hcov _ (List.mem_cons_self _ _)
    obtain ⟨ex₀, hex₀, hfa⟩ := ih (fun p hp => hcov p (List.mem_cons_of_mem _ hp))
    refine ⟨(q, text) :: ex₀, ?_, ?_⟩
    · simp only [buildExamplesFrom, hrel, hcorp, hex₀]
    · exact List.Forall₂.cons ⟨rfl, did, tl, hrel, hcorp⟩ hfa

theorem buildExamplesFrom_error_of_missing_doc (corpus : List (String × String))
    (rel : List (String × List String)) (qs : List (String × String))
    (qid q did : String) (tl : List String) (hmem : (qid, q) ∈ qs)
    (hrel : lookup rel qid = some (did :: tl))
    (hcorp : lookup corpus did = none) :
    ∃ err, buildExamplesFrom corpus rel qs = .error err := by
  induction qs with
  | nil => cases hmem
  | cons p rest ih =>
    obtain ⟨qid₀, q₀⟩ := p
    cases hrel₀ : lookup rel qid₀ with
    | none =>
      exact ⟨"KeyError: " ++ qid₀, by simp only [buildExamplesFrom, hrel₀]⟩
    | some l =>
      cases l with
      | nil =>
        exact ⟨"IndexError: list index out of range",
          by simp only [buildExamplesFrom, hrel₀]⟩
      | cons did₀ tl₀ =>
        cases hcorp₀ : lookup corpus did₀ with
        | none =>
          exact ⟨"KeyError: " ++ did₀,
            by simp only [buildExamplesFrom, hrel₀, hcorp₀]⟩
        | some text₀ =>
          rcases List.mem_cons.mp hmem with heq | hmem₀
          · rw [Prod.mk.injEq] at heq
            rw [← heq.1, hrel] at hrel₀
            injection hrel₀ with h₁
            injection h₁ with h₂ h₃
            rw [← h₂, hcorp] at hcorp₀
            exact Option.noConfusion hcorp₀
          · obtain ⟨err, hrest⟩ := ih hmem₀
            exact ⟨err,
              by simp only [buildExamplesFrom, hrel₀, hcorp₀, hrest]⟩

theorem buildExamplesFrom_truncateRel (corpus : List (String × String))
    (rel : List (String × List String)) (qs : List (String × String)) :
    buildExamplesFrom corpus (truncateRel rel) qs =
      buildExamplesFrom corpus rel qs := by
  induction qs with
  | nil => rfl
  | cons p rest ih =>
    obtain ⟨qid, q⟩ := p
    simp only [buildExamplesFrom, lookup_truncateRel, ih]
    cases lookup rel qid with
    | none => rfl
    | some l =>
      cases l with
      | nil => rfl
      | cons did tl => rfl

theorem lookup_bump_self (label : String) (x : Rat)
    (acc : List (String × Rat × Nat)) :
    lookup (bump label x acc) label =
      some (match lookup acc label with
            | none => (x, 1)
            | some sc => (sc.1 + x, sc.2 + 1)) := by
  induction acc with
  | nil => simp [bump, lookup]
  | cons e rest ih =>
    obtain ⟨l, s, c⟩ := e
    by_cases hl : l = label
    · subst hl
      simp [bump, lookup]
    · simp only [bump, hl, if_false, lookup, ih]

theorem lookup_bump_other (label k : String) (x : Rat)
    (acc : List (String × Rat × Nat)) (hne : label ≠ k) :
    lookup (bump label x acc) k = lookup acc k := by
  induction acc with
  | nil => simp [bump, lookup, hne]
  | cons e rest ih =>
    obtain ⟨l, s, c⟩ := e
    by_cases hl : l = label
    · subst hl
      simp [bump, lookup, hne]
    · simp only [bump, hl, if_false, lookup, ih]

theorem sum_map_boolToRat (bs : List Bool) :
    (bs.map boolToRat).sum = ((bs.countP id : Nat) : Rat) := by
  induction bs with
  | nil => simp
  | cons b rest ih =>
    simp only [List.map_cons, List.sum_cons, List.countP_cons, ih, boolToRat]
    cases b <;> simp [add_comm]

theorem lookup_map_snd {α β : Type} (f : α → β) (m : List (String × α))
    (k : String) :
    lookup (m.map (fun e => (e.1, f e.2))) k = (lookup m k).map f := by
  induction m with
  | nil => rfl
  | cons e rest ih =>
    obtain ⟨k₀, v⟩ := e
    by_cases hk : k₀ = k <;> simp [lookup, hk, ih]

theorem lookup_groupAgg (rows : List LabeledResult) (label : String) :
    lookup (groupAgg rows) label =
      if (rows.filter (fun r => r.model = label)) = [] then none
      else some
        (((rows.filter (fun r => r.model = label)).map
            (fun r => boolToRat r.is_hit)).sum,
         (rows.filter (fun r => r.model = label)).length) := by
  induction rows with
  | nil => rfl
  | cons r rest ih =>
    by_cases hm : r.model = label
    · rw [show groupAgg (r :: rest) =
          bump r.model (boolToRat r.is_hit) (groupAgg rest) from rfl, hm,
        lookup_bump_self, ih]
      by_cases hf : (rest.filter (fun r => r.model = label)) = []
      · simp [hf, List.filter_cons, hm]
      · simp [hf, List.filter_cons, hm, add_comm]
    · rw [show groupAgg (r :: rest) =
          bump r.model (boolToRat r.is_hit) (groupAgg rest) from rfl,
        lookup_bump_other r.model label _ _ hm, ih]
      simp [List.filter_cons, hm]

theorem lookup_groupMeans (rows : List LabeledResult) (label : String) :
    lookup (groupMeans rows) label =
      (lookup (groupAgg rows) label).map (fun v => v.1 / (v.2 : Rat)) := by
  rw [groupMeans]
  exact lookup_map_snd (fun v => v.1 / (v.2 : Rat)) (groupAgg rows) label

theorem sum_flags_eq_countHits (rs : List EvalResult) :
    (rs.map (fun r => boolToRat r.is_hit)).sum = (countHits rs : Rat) := by
  have h₁ : rs.map (fun r => boolToRat r.is_hit) =
      (rs.map (fun r => r.is_hit)).map boolToRat := by
    rw [List.map_map]
    rfl
  rw [h₁, sum_map_boolToRat, countHits, List.countP_map]
  rfl

theorem sum_flags_eq_count_labeled (rows : List LabeledResult) :
    (rows.map (fun r => boolToRat r.is_hit)).sum =
      ((rows.countP (fun r => r.is_hit) : Nat) : Rat) := by
  have h₁ : rows.map (fun r => boolToRat r.is_hit) =
      (rows.map (fun r => r.is_hit)).map boolToRat := by
    rw [List.map_map]
    rfl
  rw [h₁, sum_map_boolToRat, List.countP_map]
  rfl

/-! ### Claims -/

/-- C1: for every dataset and every query, when the evaluator succeeds, a
result record's hit flag is true iff the first element of that query's
`relevant_docs` sequence (its `expected` field) appears anywhere in the
retrieved identifier sequence; and the evaluator reads only that first
element: truncating every `relevant_docs` sequence to its first element
leaves the evaluation unchanged. -/
theorem C1_hit_flag_first_relevant (ds : Dataset) (retr : String → List String)
    (rs : List EvalResult) (h : evaluate ds retr = .ok rs) :
    (∀ r ∈ rs,
      ∃ tl, lookup ds.relevant_docs r.query = some (r.expected :: tl) ∧
        (r.is_hit = true ↔ r.expected ∈ r.retrieved)) ∧
      evaluate (Dataset.mk ds.corpus ds.queries (truncateRel ds.relevant_docs))
          retr = evaluate ds retr := by
  constructor
  · intro r hr
    obtain ⟨⟨tl, hl⟩, _, hiff⟩ :=
      evalQueries_mem ds.relevant_docs retr ds.queries rs h r hr
    exact ⟨tl, hl, hiff⟩
  · exact evalQueries_truncateRel ds.relevant_docs retr ds.queries

theorem C1_hit_flag_first_relevant_witness :
    (⟨true, ["d1"], "d1", "q1"⟩ : EvalResult).is_hit = true ↔
      "d1" ∈ (⟨true, ["d1"], "d1", "q1"⟩ : EvalResult).retrieved :=
  (((C1_hit_flag_first_relevant dsExample (retrieveTopK rankingExample 1)
      [⟨true, ["d1"], "d1", "q1"⟩] rfl).1 ⟨true, ["d1"], "d1", "q1"⟩
      (List.mem_singleton.mpr rfl)).choose_spec).2

/-- C2: when the evaluator succeeds on a dataset it returns exactly one record
per query, in the iteration order of the queries mapping, and each record's
query field is one of the dataset's query identifiers. -/
theorem C2_one_record_per_query (ds : Dataset) (retr : String → List String)
    (rs : List EvalResult) (h : evaluate ds retr = .ok rs) :
    rs.length = ds.queries.length ∧
      rs.map (fun r => r.query) = ds.queries.map (fun p => p.1) ∧
      ∀ r ∈ rs, r.query ∈ ds.queries.map (fun p => p.1) := by
  have hmap := evalQueries_map_query ds.relevant_docs retr ds.queries rs h
  refine ⟨?_, hmap, ?_⟩
  · have hlen := congrArg List.length hmap
    simpa using hlen
  · intro r hr
    rw [← hmap]
    exact List.mem_map_of_mem _ hr

theorem C2_one_record_per_query_witness :
    List.map (fun r => EvalResult.query r) [⟨true, ["d1"], "d1", "q1"⟩] =
      List.map (fun p => p.1) dsExample.queries :=
  (C2_one_record_per_query dsExample (retrieveTopK rankingExample 1)
    [⟨true, ["d1"], "d1", "q1"⟩] rfl).2.1

/-- C4: a query whose identifier is absent from `relevant_docs` makes the
evaluator fail hard with a lookup error when it reaches that query; it never
returns a result sequence (so the query is not silently skipped). -/
theorem C4_missing_ground_truth_fails (ds : Dataset)
    (retr : String → List String) (qid q : String)
    (hmem : (qid, q) ∈ ds.queries)
    (hl : lookup ds.relevant_docs qid = none) :
    (∃ err, evaluate ds retr = .error err) ∧
      ∀ rs, evaluate ds retr ≠ .ok rs := by
  obtain ⟨err, herr⟩ :=
    evalQueries_error_of_missing ds.relevant_docs retr ds.queries qid q hmem hl
  exact ⟨⟨err, herr⟩, fun rs hok => Except.noConfusion (herr.symm.trans hok)⟩

theorem C4_missing_ground_truth_fails_witness :
    evaluate dsMissingRel (retrieveTopK rankingExample 5) ≠ .ok [] :=
  (C4_missing_ground_truth_fails dsMissingRel (retrieveTopK rankingExample 5)
    "q1" "what kind of animal is a cat" (List.mem_singleton.mpr rfl) rfl).2 []

/-- C5: with an empty queries mapping the evaluator returns the empty record
sequence without error; the aggregation applied to the empty record sequence
fails with an explicit error (the `is_hit` column lookup on an empty frame
raises) rather than silently returning 0 or an unflagged NaN. -/
theorem C5_empty_queries (ds : Dataset) (retr : String → List String)
    (h : ds.queries = []) :
    evaluate ds retr = .ok [] ∧
      hit_rate [] = .error "KeyError: is_hit" ∧
      ∀ x, hit_rate [] ≠ .ok x := by
  refine ⟨?_, rfl, fun x hx => Except.noConfusion hx⟩
  show evalQueries ds.relevant_docs retr ds.queries = .ok []
  rw [h]
  rfl

theorem C5_empty_queries_witness :
    evaluate dsEmptyQueries (retrieveTopK rankingExample 5) = .ok [] :=
  (C5_empty_queries dsEmptyQueries (retrieveTopK rankingExample 5) rfl).1

/-- C3: for a non-empty record sequence the aggregated hit rate is the number
of records with hit flag true divided by the record count, which is the mean
of the per-record hit flags; and when labelled records are grouped by label,
the scalar reported for a label is the mean of the hit flags of that label's
records alone. -/
theorem C3_aggregation_consistent (rs : List EvalResult)
    (rows : List LabeledResult) (label : String) (hrs : rs ≠ [])
    (hrow : rows.filter (fun r => r.model = label) ≠ []) :
    hit_rate rs = .ok (.val ((countHits rs : Rat) / (rs.length : Rat))) ∧
      (countHits rs : Rat) / (rs.length : Rat) =
        (rs.map (fun r => boolToRat r.is_hit)).sum / (rs.length : Rat) ∧
      lookup (groupMeans rows) label =
        some (((rows.filter (fun r => r.model = label)).map
            (fun r => boolToRat r.is_hit)).sum /
          ((rows.filter (fun r => r.model = label)).length : Rat)) := by
  refine ⟨?_, by rw [sum_flags_eq_countHits], ?_⟩
  · rw [hit_rate, if_neg hrs, seriesMean,
      if_neg (fun hm => hrs (List.map_eq_nil_iff.mp hm)),
      sum_flags_eq_countHits, List.length_map]
  · rw [lookup_groupMeans, lookup_groupAgg, if_neg hrow]
    rfl

theorem C3_aggregation_consistent_witness :
    hit_rate [⟨true, ["d1"], "d1", "q1"⟩, ⟨false, ["d1"], "d2", "q2"⟩] =
        .ok (.val ((1 : Rat) / 2)) ∧
      lookup (groupMeans [⟨true, "ada"⟩, ⟨false, "ada"⟩, ⟨true, "bge"⟩])
          "ada" = some ((1 : Rat) / 2) := by
  have h := C3_aggregation_consistent
    [⟨true, ["d1"], "d1", "q1"⟩, ⟨false, ["d1"], "d2", "q2"⟩]
    [⟨true, "ada"⟩, ⟨false, "ada"⟩, ⟨true, "bge"⟩] "ada"
    (by decide) (by decide)
  refine ⟨?_, ?_⟩
  · rw [h.1]
    norm_num [countHits]
  · rw [h.2.2]
    have hne : ¬ (("bge" : String) = "ada") := by decide
    norm_num [List.filter_cons, boolToRat, if_neg hne]

/-- C6: with the spec-modelled top-k retrieval over a fixed similarity
ranking (retrieved = first k of the ranking), enlarging top-k cannot turn a
hit into a miss: for k₁ ≤ k₂, whenever both evaluations succeed, the hit
count is monotone and the hit rate (hits divided by record count) is
monotonically non-decreasing. -/
theorem C6_hit_rate_monotone_topk (ds : Dataset)
    (ranking : String → List String) (k₁ k₂ : Nat) (hk : k₁ ≤ k₂)
    (rs₁ rs₂ : List EvalResult)
    (h₁ : evaluate ds (retrieveTopK ranking k₁) = .ok rs₁)
    (h₂ : evaluate ds (retrieveTopK ranking k₂) = .ok rs₂) :
    countHits rs₁ ≤ countHits rs₂ ∧
      (countHits rs₁ : Rat) / (rs₁.length : Rat) ≤
        (countHits rs₂ : Rat) / (rs₂.length : Rat) := by
  obtain ⟨hlen, hcnt⟩ := evalQueries_hits_mono ds.relevant_docs ranking k₁ k₂
    hk ds.queries rs₁ rs₂ h₁ h₂
  refine ⟨hcnt, ?_⟩
  rw [hlen]
  rcases Nat.eq_zero_or_pos rs₂.length with h0 | hpos
  · rw [h0]
    norm_num
  · have hpos' : (0 : Rat) < (rs₂.length : Rat) := by exact_mod_cast hpos
    exact (div_le_div_iff_of_pos_right hpos').mpr (by exact_mod_cast hcnt)

theorem C6_hit_rate_monotone_topk_witness :
    countHits [⟨true, ["d1"], "d1", "q1"⟩] ≤
      countHits [⟨true, ["d1", "d2"], "d1", "q1"⟩] :=
  (C6_hit_rate_monotone_topk dsExample rankingExample 1 2 (by decide)
    [⟨true, ["d1"], "d1", "q1"⟩] [⟨true, ["d1", "d2"], "d1", "q1"⟩]
    rfl rfl).1

/-- C7: when every retrieved identifier is drawn from the corpus identifiers
(as the index is built over the corpus) and every query has a non-empty
`relevant_docs` entry, the evaluator executes without error even if some
query's ground-truth identifier is absent from the corpus, and every record
whose expected identifier is outside the corpus identifiers has hit flag
false. -/
theorem C7_ghost_ground_truth_miss (ds : Dataset)
    (ranking : String → List String) (k : Nat)
    (hsub : ∀ q id₀, id₀ ∈ ranking q → id₀ ∈ corpusIds ds)
    (hcov : ∀ p ∈ ds.queries,
      ∃ e tl, lookup ds.relevant_docs p.1 = some (e :: tl)) :
    (∃ rs, evaluate ds (retrieveTopK ranking k) = .ok rs) ∧
      ∀ rs, evaluate ds (retrieveTopK ranking k) = .ok rs →
        ∀ r ∈ rs, r.expected ∉ corpusIds ds → r.is_hit = false := by
  refine ⟨evalQueries_total ds.relevant_docs (retrieveTopK ranking k)
    ds.queries hcov, fun rs hok r hr hout => ?_⟩
  obtain ⟨_, ⟨qtext, _, hretr⟩, hiff⟩ :=
    evalQueries_mem ds.relevant_docs (retrieveTopK ranking k) ds.queries
      rs hok r hr
  cases hb : r.is_hit with
  | false => rfl
  | true =>
    exfalso
    have hmem := hiff.mp hb
    rw [hretr] at hmem
    exact hout (hsub qtext r.expected (List.take_subset _ _ hmem))

theorem C7_ghost_ground_truth_miss_witness :
    (⟨false, ["d1"], "d3", "q1"⟩ : EvalResult).is_hit = false :=
  (C7_ghost_ground_truth_miss dsGhostDoc rankingOneDoc 5
    (fun _ _ h => h)
    (fun p hp => by
      have hp' : p = ("q1", "what is a cat") := by
        simpa [dsGhostDoc] using hp
      subst hp'
      exact ⟨"d3", [], rfl⟩)).2
    [⟨false, ["d1"], "d3", "q1"⟩] rfl ⟨false, ["d1"], "d3", "q1"⟩
    (List.mem_singleton.mpr rfl) (by decide)

/-- C8: when every query's first relevant identifier resolves in the corpus,
the training-pair construction produces exactly one pair per query, in the
iteration order of the queries mapping, pairing the query text with the
corpus text under the first identifier of that query's `relevant_docs`
sequence; identifiers after the first are ignored (truncating every
`relevant_docs` sequence to its first element changes nothing). -/
theorem C8_training_pairs (ds : Dataset)
    (hcov : ∀ p ∈ ds.queries, ∃ did tl text,
      lookup ds.relevant_docs p.1 = some (did :: tl) ∧
        lookup ds.corpus did = some text) :
    (∃ ex, buildExamples ds = .ok ex ∧ ex.length = ds.queries.length ∧
      List.Forall₂ (fun (p : String × String) (e : String × String) =>
        e.1 = p.2 ∧ ∃ did tl, lookup ds.relevant_docs p.1 = some (did :: tl) ∧
          lookup ds.corpus did = some e.2) ds.queries ex) ∧
      buildExamples
          (Dataset.mk ds.corpus ds.queries (truncateRel ds.relevant_docs)) =
        buildExamples ds := by
  obtain ⟨ex, hok, hfa⟩ :=
    buildExamplesFrom_total_spec ds.corpus ds.relevant_docs ds.queries hcov
  exact ⟨⟨ex, hok, hfa.length_eq.symm, hfa⟩,
    buildExamplesFrom_truncateRel ds.corpus ds.relevant_docs ds.queries⟩

theorem C8_training_pairs_witness :
    buildExamples
        (Dataset.mk dsExample.corpus dsExample.queries
          (truncateRel dsExample.relevant_docs)) =
      buildExamples dsExample :=
  (C8_training_pairs dsExample
    (fun p hp => by
      have hp' : p = ("q1", "what kind of animal is a cat") := by
        simpa [dsExample] using hp
      subst hp'
      exact ⟨"d1", [], "cats are mammals", rfl, rfl⟩)).2

/-- C9 (amended): with the spec-modelled retrieval (the similarity ranking
lists exactly the corpus identifiers, and top-k retrieval takes its first k
entries), each record's retrieved sequence has length
min(top_k, corpus size) — for every top_k, including top_k larger than the
corpus; it equals top_k exactly when the corpus holds at least top_k
documents. -/
theorem C9_retrieved_length (ds : Dataset) (ranking : String → List String)
    (k : Nat) (rs : List EvalResult)
    (hrank : ∀ q, (ranking q).length = ds.corpus.length)
    (h : evaluate ds (retrieveTopK ranking k) = .ok rs) :
    ∀ r ∈ rs, r.retrieved.length = min k ds.corpus.length := by
  intro r hr
  obtain ⟨_, ⟨qtext, _, hretr⟩, _⟩ :=
    evalQueries_mem ds.relevant_docs (retrieveTopK ranking k) ds.queries
      rs h r hr
  rw [hretr]
  show ((ranking qtext).take k).length = min k ds.corpus.length
  rw [List.length_take, hrank]

theorem C9_retrieved_length_witness :
    (⟨true, ["d1"], "d1", "q1"⟩ : EvalResult).retrieved.length =
      min 5 dsOneDoc.corpus.length :=
  C9_retrieved_length dsOneDoc rankingOneDoc 5
    [⟨true, ["d1"], "d1", "q1"⟩] (fun _ => rfl) rfl
    ⟨true, ["d1"], "d1", "q1"⟩ (List.mem_singleton.mpr rfl)

/-- C9 counterexample: on a single-document corpus with the default
top_k = 5, the record's retrieved sequence has length 1, not 5, so the
retrieved length is not always exactly the top-k parameter. -/
theorem C9_retrieved_length_counterexample :
    evaluate dsOneDoc (retrieveTopK rankingOneDoc 5) =
        .ok [⟨true, ["d1"], "d1", "q1"⟩] ∧
      ¬ ((⟨true, ["d1"], "d1", "q1"⟩ : EvalResult).retrieved.length = 5) :=
  ⟨rfl, by decide⟩

/-- C10: unlike the hit-rate evaluator, the training-pair construction looks
the first relevant identifier up in the corpus mapping, so when some query's
first relevant identifier is absent from the corpus it fails hard with a
lookup error and never produces a pair list, while the hit-rate evaluator
still succeeds on the same dataset. -/
theorem C10_pairs_fail_on_ghost_doc (ds : Dataset) (qid q did : String)
    (tl : List String) (hmem : (qid, q) ∈ ds.queries)
    (hrel : lookup ds.relevant_docs qid = some (did :: tl))
    (hcorp : lookup ds.corpus did = none)
    (hcov : ∀ p ∈ ds.queries,
      ∃ e tl₀, lookup ds.relevant_docs p.1 = some (e :: tl₀)) :
    (∃ err, buildExamples ds = .error err) ∧
      (∀ ex, buildExamples ds ≠ .ok ex) ∧
      ∀ retr, ∃ rs, evaluate ds retr = .ok rs := by
  obtain ⟨err, herr⟩ := buildExamplesFrom_error_of_missing_doc ds.corpus
    ds.relevant_docs ds.queries qid q did tl hmem hrel hcorp
  exact ⟨⟨err, herr⟩,
    fun ex hok => Except.noConfusion (herr.symm.trans hok),
    fun retr => evalQueries_total ds.relevant_docs retr ds.queries hcov⟩

theorem C10_pairs_fail_on_ghost_doc_witness :
    buildExamples dsGhostDoc ≠ .ok [] :=
  (C10_pairs_fail_on_ghost_doc dsGhostDoc "q1" "what is a cat" "d3" []
    (List.mem_singleton.mpr rfl) rfl rfl
    (fun p hp => by
      have hp' : p = ("q1", "what is a cat") := by
        simpa [dsGhostDoc] using hp
      subst hp'
      exact ⟨"d3", [], rfl⟩)).2.1 []

end FineTuneRag
